import Mathlib

/-!
Verification of the react-popout core: the geometry / collision / flip engine
(`calculatePosition`, `checkBoundaryOutOfBounds`, `isContained`, and the flip
resolution logic of `positionPopout`) and the read/write batching scheduler
(`schedule`, `read`, `write` with its refresh-signal and timer drains).
Rectangle coordinates are modelled as rationals.
-/

namespace ReactPopout

/-- `Position` from the source (`Pick<ClientRect, top|left|right|bottom>`):
an axis-aligned rectangle given by its four edges. -/
structure Position where
  top : ℚ
  left : ℚ
  right : ℚ
  bottom : ℚ
deriving DecidableEq

/-- `Dimensions` from the source (`Pick<ClientRect, height|width>`). -/
structure Dimensions where
  width : ℚ
  height : ℚ
deriving DecidableEq

/-- `Direction = keyof Position`: the four attachment directions. -/
inductive Direction where
  | top
  | right
  | bottom
  | left
deriving DecidableEq

/-- The `oppositeDirection` mapping table from the source. -/
def oppositeDirection : Direction → Direction
  | .bottom => .top
  | .left => .right
  | .right => .left
  | .top => .bottom

/-- `calculatePosition(anchor, dimensions, direction)` from the source:
the candidate rectangle for attaching a popout of the given dimensions to
the anchor on the given side, with a fixed padding of 12. -/
def calculatePosition (anchor : Position) (dimensions : Dimensions)
    (direction : Direction) : Position :=
  let padding : ℚ := 12
  match direction with
  | .bottom =>
    { bottom := anchor.bottom + padding + dimensions.height
      left := anchor.left
      right := anchor.left + dimensions.width
      top := anchor.bottom + padding }
  | .left =>
    { bottom := anchor.top + dimensions.height
      left := anchor.left - padding - dimensions.width
      right := anchor.left - padding
      top := anchor.top }
  | .right =>
    { bottom := anchor.top + dimensions.height
      left := anchor.right + padding
      right := anchor.right + padding + dimensions.width
      top := anchor.top }
  | .top =>
    { bottom := anchor.top - padding
      left := anchor.left
      right := anchor.left + dimensions.width
      top := anchor.top - padding - dimensions.height }

/-- The per-direction overflow record `{ [K in Direction]: boolean }`
returned by `checkBoundaryOutOfBounds`. -/
structure BoundaryStatus where
  bottom : Bool
  left : Bool
  right : Bool
  top : Bool
deriving DecidableEq

/-- `checkBoundaryOutOfBounds(rect, boundary)` from the source: per-side
overflow of `rect` against `boundary`. -/
def checkBoundaryOutOfBounds (rect : Position) (boundary : Position) :
    BoundaryStatus :=
  { bottom := decide (rect.bottom > boundary.bottom) || decide (rect.top > boundary.bottom)
    left := decide (rect.left < boundary.left) || decide (rect.right < boundary.left)
    right := decide (rect.left > boundary.right) || decide (rect.right > boundary.right)
    top := decide (rect.top < boundary.top) || decide (rect.bottom < boundary.top) }

/-- Indexing a `BoundaryStatus` by a direction, the source's
`outOufBoundsSides[direction]`. -/
def BoundaryStatus.get (s : BoundaryStatus) : Direction → Bool
  | .bottom => s.bottom
  | .left => s.left
  | .right => s.right
  | .top => s.top

/-- `isContained(rect, boundary)` from the source: no side of
`checkBoundaryOutOfBounds` overflows. -/
def isContained (rect : Position) (boundary : Position) : Bool :=
  let s := checkBoundaryOutOfBounds rect boundary
  !(s.bottom || s.left || s.right || s.top)

/-- The `flipFailureRecovery` prop, `'original' | 'scrollable'`. -/
inductive FlipFailureRecovery where
  | original
  | scrollable
deriving DecidableEq

/-- The positioning outcome: the final rectangle together with the
`flipped` flag. -/
structure PositioningResult where
  position : Position
  flipped : Bool
deriving DecidableEq

/-- The pure flip-resolution core of the source's `positionPopout` read
callback: compute the primary placement, and when a boundary is present,
flip is enabled and the primary placement overflows on its own direction,
attempt the opposite placement, falling back per `flipFailureRecovery` when
the flipped placement overflows on the opposite direction. -/
def positionPopout (anchor : Position) (dims : Dimensions)
    (boundary : Option Position) (direction : Direction) (flip : Bool)
    (flipFailureRecovery : FlipFailureRecovery) : PositioningResult :=
  let position := calculatePosition anchor dims direction
  match boundary with
  | none => ⟨position, false⟩
  | some boundaryRect =>
    let outOufBoundsSides := checkBoundaryOutOfBounds position boundaryRect
    if flip && outOufBoundsSides.get direction then
      let opposite := oppositeDirection direction
      let newPosition := calculatePosition anchor dims opposite
      let finalPosition :=
        if (checkBoundaryOutOfBounds newPosition boundaryRect).get opposite then
          if flipFailureRecovery = .original then
            position
          else
            match opposite with
            | .top => position
            | .bottom => newPosition
            | .left => position
            | .right => newPosition
        else newPosition
      ⟨finalPosition, true⟩
    else ⟨position, false⟩

/-!
## Scheduler model

The scheduler (`scheduler.ts`) keeps two module-level FIFO queues `writes`
and `reads`, an armed refresh-request id `rafId` and an armed timer id
`timeoutId`. `schedule()` arms the refresh request if not already armed
(`rafId = rafId || requestAnimationFrame(...)`). When the refresh signal
fires it clears `rafId`, drains the write queue with the drain count
snapshotted at phase start (`for (i = writes.length; i > 0; i--)
if ((cb = writes.shift())) cb()`), then arms the timer
(`timeoutId = timeoutId || setTimeout(...)`); when the timer fires it
clears `timeoutId` and drains the read queue the same way.

Callbacks are identified by natural-number ids. An environment assigns to
each id a behaviour: whether invoking it throws, and which scheduler calls
(`write`/`read`) its body makes. A callback that throws performs none of
its calls, and — since the source drain loop has no exception handling —
the exception escapes the drain loop, aborting the remainder of the phase.
-/

/-- A scheduler call made from inside a callback body: `write c` or
`read c`. -/
inductive SchedCall where
  | wr (c : Nat)
  | rd (c : Nat)
deriving DecidableEq

/-- Behaviour of a callback: whether invoking it throws, and the
scheduler calls its body makes (in order) when it does not throw. -/
structure CbSpec where
  fails : Bool
  acts : List SchedCall
deriving DecidableEq

/-- Environment mapping callback ids to behaviours. -/
def Env : Type := Nat → CbSpec

/-- Scheduler state: the two FIFO queues of callback ids, the two armed
markers (`rafId`/`timeoutId` truthiness), and a log of the callbacks that
ran to completion, in execution order. -/
structure SchedState where
  writes : List Nat
  reads : List Nat
  rafArmed : Bool
  timeoutArmed : Bool
  log : List Nat
deriving DecidableEq

/-- The initial module state: empty queues, nothing armed. -/
def initState : SchedState := ⟨[], [], false, false, []⟩

/-- `schedule()` from the source: arm the refresh request if not already
armed (`rafId = rafId || requestAnimationFrame(...)`). -/
def schedule (s : SchedState) : SchedState :=
  { s with rafArmed := true }

/-- `write(cb)` from the source: call `schedule()` then push onto the
write queue. -/
def write (c : Nat) (s : SchedState) : SchedState :=
  let s1 := schedule s
  { s1 with writes := s1.writes ++ [c] }

/-- `read(cb)` from the source: call `schedule()` then push onto the read
queue. -/
def read (c : Nat) (s : SchedState) : SchedState :=
  let s1 := schedule s
  { s1 with reads := s1.reads ++ [c] }

/-- Perform the scheduler calls of a callback body, in order. -/
def runActs (acts : List SchedCall) (s : SchedState) : SchedState :=
  match acts with
  | [] => s
  | .wr c :: rest => runActs rest (write c s)
  | .rd c :: rest => runActs rest (read c s)

/-- The write-phase drain loop
`for (i = writes.length; i > 0; i--) if ((cb = writes.shift())) cb()`,
with the iteration count passed as fuel (snapshotted by the caller).
Returns the state and whether an exception escaped the loop: a throwing
callback has been shifted off the queue but the remaining iterations do
not happen. -/
def drainWrites (env : Env) : Nat → SchedState → SchedState × Bool
  | 0, s => (s, false)
  | Nat.succ n, s =>
    match s.writes with
    | [] => (s, false)
    | c :: rest =>
      let s1 := { s with writes := rest }
      if (env c).fails then (s1, true)
      else drainWrites env n (runActs (env c).acts { s1 with log := s1.log ++ [c] })

/-- The read-phase drain loop, identical to `drainWrites` but on the read
queue. -/
def drainReads (env : Env) : Nat → SchedState → SchedState × Bool
  | 0, s => (s, false)
  | Nat.succ n, s =>
    match s.reads with
    | [] => (s, false)
    | c :: rest =>
      let s1 := { s with reads := rest }
      if (env c).fails then (s1, true)
      else drainReads env n (runActs (env c).acts { s1 with log := s1.log ++ [c] })

/-- The refresh signal firing: if a refresh request is armed, clear it,
drain the write queue with the count snapshotted now, and — unless an
exception escaped the drain loop — arm the timer
(`timeoutId = timeoutId || setTimeout(...)`; an escaping exception aborts
the refresh callback before the `setTimeout` line). -/
def fireRaf (env : Env) (s : SchedState) : SchedState :=
  if s.rafArmed then
    let s1 := { s with rafArmed := false }
    let res := drainWrites env s1.writes.length s1
    if res.2 then res.1 else { res.1 with timeoutArmed := true }
  else s

/-- The timer firing: if armed, clear it and drain the read queue with
the count snapshotted now. -/
def fireTimeout (env : Env) (s : SchedState) : SchedState :=
  if s.timeoutArmed then
    let s1 := { s with timeoutArmed := false }
    (drainReads env s1.reads.length s1).1
  else s

/-- Enqueue a list of write callbacks in order (one `write` call each). -/
def writeAll (cs : List Nat) (s : SchedState) : SchedState :=
  match cs with
  | [] => s
  | c :: rest => writeAll rest (write c s)

/-- Enqueue a list of read callbacks in order (one `read` call each). -/
def readAll (cs : List Nat) (s : SchedState) : SchedState :=
  match cs with
  | [] => s
  | c :: rest => readAll rest (read c s)

/-- A callback id whose behaviour neither throws nor makes scheduler
calls. -/
def pureCb (env : Env) (c : Nat) : Prop := env c = ⟨false, []⟩

/-!
## Geometry theorems
-/

/-- Claim C4: for every anchor rectangle, dimensions and each of the four
directions, `calculatePosition` returns exactly the spec's formulas with a
fixed padding of 12; the function is total over all four direction
values. -/
theorem calculatePosition_formulas (anchor : Position) (dims : Dimensions) :
    calculatePosition anchor dims .right =
      { top := anchor.top, left := anchor.right + 12,
        right := anchor.right + 12 + dims.width, bottom := anchor.top + dims.height } ∧
    calculatePosition anchor dims .left =
      { top := anchor.top, left := anchor.left - 12 - dims.width,
        right := anchor.left - 12, bottom := anchor.top + dims.height } ∧
    calculatePosition anchor dims .bottom =
      { top := anchor.bottom + 12, left := anchor.left,
        right := anchor.left + dims.width, bottom := anchor.bottom + 12 + dims.height } ∧
    calculatePosition anchor dims .top =
      { top := anchor.top - 12 - dims.height, left := anchor.left,
        right := anchor.left + dims.width, bottom := anchor.top - 12 } :=
  ⟨rfl, rfl, rfl, rfl⟩

/-- Claim C5: `checkBoundaryOutOfBounds` reports each side independently by
exactly the spec's comparisons, and `isContained` holds iff no side
overflows. -/
theorem checkOutOfBounds_spec (rect boundary : Position) :
    ((checkBoundaryOutOfBounds rect boundary).top = true ↔
      rect.top < boundary.top ∨ rect.bottom < boundary.top) ∧
    ((checkBoundaryOutOfBounds rect boundary).bottom = true ↔
      rect.bottom > boundary.bottom ∨ rect.top > boundary.bottom) ∧
    ((checkBoundaryOutOfBounds rect boundary).left = true ↔
      rect.left < boundary.left ∨ rect.right < boundary.left) ∧
    ((checkBoundaryOutOfBounds rect boundary).right = true ↔
      rect.left > boundary.right ∨ rect.right > boundary.right) ∧
    (isContained rect boundary = true ↔
      (checkBoundaryOutOfBounds rect boundary).top = false ∧
      (checkBoundaryOutOfBounds rect boundary).bottom = false ∧
      (checkBoundaryOutOfBounds rect boundary).left = false ∧
      (checkBoundaryOutOfBounds rect boundary).right = false) := by
  simp [checkBoundaryOutOfBounds, isContained]
  tauto

/-- Claim C9: a rectangle satisfying the Rect invariant never overflows
itself: `checkBoundaryOutOfBounds rect rect` is all-false. -/
theorem rect_not_overflow_itself (rect : Position)
    (h1 : rect.top ≤ rect.bottom) (h2 : rect.left ≤ rect.right) :
    checkBoundaryOutOfBounds rect rect = ⟨false, false, false, false⟩ := by
  have hb := not_lt.mpr h1
  have hr := not_lt.mpr h2
  simp [checkBoundaryOutOfBounds, hb, hr]

/-- Witness for C9 at the unit square. -/
theorem rect_not_overflow_itself_witness :
    checkBoundaryOutOfBounds ⟨0, 0, 1, 1⟩ ⟨0, 0, 1, 1⟩ = ⟨false, false, false, false⟩ :=
  rect_not_overflow_itself ⟨0, 0, 1, 1⟩ (by norm_num) (by norm_num)

/-- Claim C10: for nonnegative dimensions, `calculatePosition` returns a
rectangle of exactly those dimensions, hence satisfying the Rect invariant
`top ≤ bottom`, `left ≤ right`. -/
theorem calculatePosition_invariant (anchor : Position) (dims : Dimensions)
    (hw : 0 ≤ dims.width) (hh : 0 ≤ dims.height) (d : Direction) :
    (calculatePosition anchor dims d).right - (calculatePosition anchor dims d).left
        = dims.width ∧
    (calculatePosition anchor dims d).bottom - (calculatePosition anchor dims d).top
        = dims.height ∧
    (calculatePosition anchor dims d).top ≤ (calculatePosition anchor dims d).bottom ∧
    (calculatePosition anchor dims d).left ≤ (calculatePosition anchor dims d).right := by
  cases d <;> refine ⟨?_, ?_, ?_, ?_⟩ <;> simp only [calculatePosition] <;> linarith

/-- Witness for C10 at a concrete anchor and 5×6 dimensions, direction
`right`. -/
theorem calculatePosition_invariant_witness :
    (calculatePosition ⟨1, 2, 3, 4⟩ ⟨5, 6⟩ Direction.right).right -
        (calculatePosition ⟨1, 2, 3, 4⟩ ⟨5, 6⟩ Direction.right).left
        = (Dimensions.mk 5 6).width ∧
    (calculatePosition ⟨1, 2, 3, 4⟩ ⟨5, 6⟩ Direction.right).bottom -
        (calculatePosition ⟨1, 2, 3, 4⟩ ⟨5, 6⟩ Direction.right).top
        = (Dimensions.mk 5 6).height ∧
    (calculatePosition ⟨1, 2, 3, 4⟩ ⟨5, 6⟩ Direction.right).top ≤
        (calculatePosition ⟨1, 2, 3, 4⟩ ⟨5, 6⟩ Direction.right).bottom ∧
    (calculatePosition ⟨1, 2, 3, 4⟩ ⟨5, 6⟩ Direction.right).left ≤
        (calculatePosition ⟨1, 2, 3, 4⟩ ⟨5, 6⟩ Direction.right).right :=
  calculatePosition_invariant ⟨1, 2, 3, 4⟩ ⟨5, 6⟩ (by norm_num) (by norm_num)
    Direction.right

/-- Claim C8: when no boundary is supplied, or flip is disabled, or the
primary placement does not overflow on its own direction, the result is
the unmodified primary placement with `flipped = false`. -/
theorem no_flip_spec (anchor : Position) (dims : Dimensions)
    (boundary : Option Position) (direction : Direction) (flip : Bool)
    (recovery : FlipFailureRecovery)
    (h : boundary = none ∨ flip = false ∨
      ∀ b, boundary = some b →
        (checkBoundaryOutOfBounds (calculatePosition anchor dims direction) b).get
          direction = false) :
    positionPopout anchor dims boundary direction flip recovery =
      ⟨calculatePosition anchor dims direction, false⟩ := by
  cases boundary with
  | none => simp [positionPopout]
  | some b =>
    rcases h with h | h | h
    · exact absurd h (by simp)
    · subst h
      simp [positionPopout]
    · have hb := h b rfl
      simp [positionPopout, hb]

/-- Witness for C8: the spec's example where the primary `right` placement
fits inside the 200×200 boundary. -/
theorem no_flip_spec_witness :
    positionPopout ⟨100, 100, 124, 124⟩ ⟨50, 50⟩ (some ⟨0, 0, 200, 200⟩)
        Direction.right true FlipFailureRecovery.original =
      ⟨calculatePosition ⟨100, 100, 124, 124⟩ ⟨50, 50⟩ Direction.right, false⟩ :=
  no_flip_spec _ _ _ _ _ _ (Or.inr (Or.inr (fun b hb => by
    injection hb with hb
    subst hb
    simp [checkBoundaryOutOfBounds, calculatePosition, BoundaryStatus.get]
    norm_num)))

/-- Claim C7: when a boundary is supplied, flip is enabled, the primary
placement overflows on its own direction and the opposite placement does
not overflow on the opposite direction, the result is the opposite
placement with `flipped = true`. -/
theorem flip_success_spec (anchor : Position) (dims : Dimensions) (b : Position)
    (direction : Direction) (recovery : FlipFailureRecovery)
    (h1 : (checkBoundaryOutOfBounds (calculatePosition anchor dims direction) b).get
      direction = true)
    (h2 : (checkBoundaryOutOfBounds
        (calculatePosition anchor dims (oppositeDirection direction)) b).get
      (oppositeDirection direction) = false) :
    positionPopout anchor dims (some b) direction true recovery =
      ⟨calculatePosition anchor dims (oppositeDirection direction), true⟩ := by
  simp [positionPopout, h1, h2]

/-- Witness for C7: the spec's example with boundary `right = 150`, where
the `right` placement overflows and the flipped `left` placement fits. -/
theorem flip_success_spec_witness :
    positionPopout ⟨100, 100, 124, 124⟩ ⟨50, 50⟩ (some ⟨0, 0, 150, 200⟩)
        Direction.right true FlipFailureRecovery.original =
      ⟨calculatePosition ⟨100, 100, 124, 124⟩ ⟨50, 50⟩
        (oppositeDirection Direction.right), true⟩ :=
  flip_success_spec ⟨100, 100, 124, 124⟩ ⟨50, 50⟩ ⟨0, 0, 150, 200⟩
    Direction.right FlipFailureRecovery.original
    (by simp [checkBoundaryOutOfBounds, calculatePosition, BoundaryStatus.get]
        norm_num)
    (by simp [checkBoundaryOutOfBounds, calculatePosition, BoundaryStatus.get,
          oppositeDirection]
        norm_num)

/-- Claim C3: when both the primary and the flipped placement overflow on
their own directions, policy `original` yields the un-flipped primary
rectangle, policy `scrollable` yields the flipped rectangle when the
opposite direction is `bottom` or `right` and the primary rectangle when
it is `top` or `left`; in both policies `flipped` is `true`. -/
theorem flip_failure_recovery_spec (anchor : Position) (dims : Dimensions)
    (b : Position) (direction : Direction)
    (h1 : (checkBoundaryOutOfBounds (calculatePosition anchor dims direction) b).get
      direction = true)
    (h2 : (checkBoundaryOutOfBounds
        (calculatePosition anchor dims (oppositeDirection direction)) b).get
      (oppositeDirection direction) = true) :
    positionPopout anchor dims (some b) direction true .original =
      ⟨calculatePosition anchor dims direction, true⟩ ∧
    positionPopout anchor dims (some b) direction true .scrollable =
      ⟨if oppositeDirection direction = .bottom ∨ oppositeDirection direction = .right
          then calculatePosition anchor dims (oppositeDirection direction)
          else calculatePosition anchor dims direction, true⟩ := by
  refine ⟨by simp [positionPopout, h1, h2], ?_⟩
  cases hd : oppositeDirection direction <;>
    simp [positionPopout, h1, h2, hd] <;> simp [hd] at h2 ⊢ <;>
      simp [positionPopout, h1, h2]

/-- Witness for C3: anchor near the boundary's left-shifted interior so
that both the `right` and the flipped `left` placement overflow; the
opposite direction is `left`, so `scrollable` keeps the primary
rectangle. -/
theorem flip_failure_recovery_spec_witness :
    positionPopout ⟨100, 100, 124, 124⟩ ⟨50, 50⟩ (some ⟨0, 110, 150, 200⟩)
        Direction.right true .original =
      ⟨calculatePosition ⟨100, 100, 124, 124⟩ ⟨50, 50⟩ Direction.right, true⟩ ∧
    positionPopout ⟨100, 100, 124, 124⟩ ⟨50, 50⟩ (some ⟨0, 110, 150, 200⟩)
        Direction.right true .scrollable =
      ⟨if oppositeDirection Direction.right = .bottom ∨
            oppositeDirection Direction.right = .right
          then calculatePosition ⟨100, 100, 124, 124⟩ ⟨50, 50⟩
            (oppositeDirection Direction.right)
          else calculatePosition ⟨100, 100, 124, 124⟩ ⟨50, 50⟩ Direction.right,
        true⟩ :=
  flip_failure_recovery_spec ⟨100, 100, 124, 124⟩ ⟨50, 50⟩ ⟨0, 110, 150, 200⟩
    Direction.right
    (by simp [checkBoundaryOutOfBounds, calculatePosition, BoundaryStatus.get]
        norm_num)
    (by simp [checkBoundaryOutOfBounds, calculatePosition, BoundaryStatus.get,
          oppositeDirection]
        norm_num)

/-!
## Scheduler lemmas
-/

/-- Enqueuing a list of write callbacks appends them to the write queue
and arms the refresh request when the list is nonempty. -/
theorem writeAll_eq (cs : List Nat) (s : SchedState) :
    writeAll cs s =
      { s with writes := s.writes ++ cs, rafArmed := s.rafArmed || !cs.isEmpty } := by
  induction cs generalizing s with
  | nil =>
    obtain ⟨w, r, ra, ta, lg⟩ := s
    simp [writeAll]
  | cons c rest ih =>
    obtain ⟨w, r, ra, ta, lg⟩ := s
    simp [writeAll, write, schedule, ih]

/-- Enqueuing a list of read callbacks appends them to the read queue and
arms the refresh request when the list is nonempty. -/
theorem readAll_eq (cs : List Nat) (s : SchedState) :
    readAll cs s =
      { s with reads := s.reads ++ cs, rafArmed := s.rafArmed || !cs.isEmpty } := by
  induction cs generalizing s with
  | nil =>
    obtain ⟨w, r, ra, ta, lg⟩ := s
    simp [readAll]
  | cons c rest ih =>
    obtain ⟨w, r, ra, ta, lg⟩ := s
    simp [readAll, read, schedule, ih]

/-- The write drain loop is a no-op on an empty write queue. -/
theorem drainWrites_nil (env : Env) (n : Nat) (s : SchedState)
    (h : s.writes = []) : drainWrites env n s = (s, false) := by
  cases n <;> simp [drainWrites, h]

/-- The read drain loop is a no-op on an empty read queue. -/
theorem drainReads_nil (env : Env) (n : Nat) (s : SchedState)
    (h : s.reads = []) : drainReads env n s = (s, false) := by
  cases n <;> simp [drainReads, h]

/-- Splitting the write drain loop's iteration count: the second segment
runs only when no exception escaped the first. -/
theorem drainWrites_add (env : Env) (a b : Nat) :
    ∀ s : SchedState,
      drainWrites env (a + b) s =
        if (drainWrites env a s).2 then drainWrites env a s
        else drainWrites env b (drainWrites env a s).1 := by
  induction a with
  | zero =>
    intro s
    simp [drainWrites]
  | succ n ih =>
    intro s
    rw [Nat.succ_add]
    cases hw : s.writes with
    | nil =>
      simp [drainWrites, hw, drainWrites_nil env b s hw]
    | cons c rest =>
      by_cases hc : (env c).fails
      · simp [drainWrites, hw, hc]
      · simp only [drainWrites, hw, hc, if_neg, Bool.false_eq_true,
          not_false_eq_true, if_false]
        exact ih _

/-- Splitting the read drain loop's iteration count. -/
theorem drainReads_add (env : Env) (a b : Nat) :
    ∀ s : SchedState,
      drainReads env (a + b) s =
        if (drainReads env a s).2 then drainReads env a s
        else drainReads env b (drainReads env a s).1 := by
  induction a with
  | zero =>
    intro s
    simp [drainReads]
  | succ n ih =>
    intro s
    rw [Nat.succ_add]
    cases hr : s.reads with
    | nil =>
      simp [drainReads, hr, drainReads_nil env b s hr]
    | cons c rest =>
      by_cases hc : (env c).fails
      · simp [drainReads, hr, hc]
      · simp only [drainReads, hr, hc, if_neg, Bool.false_eq_true,
          not_false_eq_true, if_false]
        exact ih _

/-- Draining as many write callbacks as a pure prefix holds runs exactly
that prefix, in order, leaving the rest of the queue and every other
field untouched. -/
theorem drainWrites_pure (env : Env) (l rest : List Nat)
    (hl : ∀ c ∈ l, env c = ⟨false, []⟩) :
    ∀ s : SchedState, s.writes = l ++ rest →
      drainWrites env l.length s =
        ({ s with writes := rest, log := s.log ++ l }, false) := by
  induction l with
  | nil =>
    intro s hs
    obtain ⟨w, r, ra, ta, lg⟩ := s
    simp only [List.nil_append] at hs
    simp [drainWrites, hs]
  | cons c l' ih =>
    intro s hs
    have hc : env c = ⟨false, []⟩ := hl c (by simp)
    have hl' : ∀ x ∈ l', env x = ⟨false, []⟩ := fun x hx => hl x (by simp [hx])
    have hstep : drainWrites env (c :: l').length s
        = drainWrites env l'.length
            { s with writes := l' ++ rest, log := s.log ++ [c] } := by
      simp [drainWrites, hs, hc, runActs]
    rw [hstep, ih hl' _ (by simp)]
    obtain ⟨w, r, ra, ta, lg⟩ := s
    simp

/-- Draining as many read callbacks as a pure prefix holds runs exactly
that prefix, in order, leaving the rest of the queue and every other
field untouched. -/
theorem drainReads_pure (env : Env) (l rest : List Nat)
    (hl : ∀ c ∈ l, env c = ⟨false, []⟩) :
    ∀ s : SchedState, s.reads = l ++ rest →
      drainReads env l.length s =
        ({ s with reads := rest, log := s.log ++ l }, false) := by
  induction l with
  | nil =>
    intro s hs
    obtain ⟨w, r, ra, ta, lg⟩ := s
    simp only [List.nil_append] at hs
    simp [drainReads, hs]
  | cons c l' ih =>
    intro s hs
    have hc : env c = ⟨false, []⟩ := hl c (by simp)
    have hl' : ∀ x ∈ l', env x = ⟨false, []⟩ := fun x hx => hl x (by simp [hx])
    have hstep : drainReads env (c :: l').length s
        = drainReads env l'.length
            { s with reads := l' ++ rest, log := s.log ++ [c] } := by
      simp [drainReads, hs, hc, runActs]
    rw [hstep, ih hl' _ (by simp)]
    obtain ⟨w, r, ra, ta, lg⟩ := s
    simp

/-!
## Scheduler theorems
-/

/-- Claim C2: enqueuing `k` write callbacks then `m` read callbacks in one
synchronous turn and running one full activation (refresh signal then
timer signal) runs exactly those callbacks, every write strictly before
any read, each group in FIFO order, and leaves both queues empty. -/
theorem scheduler_full_activation_fifo (env : Env) (ws rs : List Nat)
    (hw : ∀ c ∈ ws, env c = ⟨false, []⟩) (hr : ∀ c ∈ rs, env c = ⟨false, []⟩) :
    (fireTimeout env (fireRaf env (readAll rs (writeAll ws initState)))).log
        = ws ++ rs ∧
    (fireTimeout env (fireRaf env (readAll rs (writeAll ws initState)))).writes = [] ∧
    (fireTimeout env (fireRaf env (readAll rs (writeAll ws initState)))).reads = [] := by
  have hs1 : readAll rs (writeAll ws initState)
      = ⟨ws, rs, !ws.isEmpty || !rs.isEmpty, false, []⟩ := by
    rw [writeAll_eq, readAll_eq]
    simp [initState]
  rw [hs1]
  by_cases hwe : ws.isEmpty
  · by_cases hre : rs.isEmpty
    · have hw0 : ws = [] := List.isEmpty_iff.mp hwe
      have hr0 : rs = [] := List.isEmpty_iff.mp hre
      subst hw0
      subst hr0
      simp [fireRaf, fireTimeout]
    · have harm : (!ws.isEmpty || !rs.isEmpty) = true := by simp [hre]
      rw [harm]
      have hdw : drainWrites env ws.length ⟨ws, rs, false, false, []⟩
          = (⟨[], rs, false, false, ws⟩, false) := by
        have h := drainWrites_pure env ws [] hw ⟨ws, rs, false, false, []⟩ (by simp)
        simpa using h
      have hfr : fireRaf env ⟨ws, rs, true, false, []⟩ = ⟨[], rs, false, true, ws⟩ := by
        simp [fireRaf, hdw]
      have hdr : drainReads env rs.length ⟨[], rs, false, false, ws⟩
          = (⟨[], [], false, false, ws ++ rs⟩, false) := by
        have h := drainReads_pure env rs [] hr ⟨[], rs, false, false, ws⟩ (by simp)
        simpa using h
      have hft : fireTimeout env ⟨[], rs, false, true, ws⟩
          = ⟨[], [], false, false, ws ++ rs⟩ := by
        simp [fireTimeout, hdr]
      rw [hfr, hft]
      simp
  · have harm : (!ws.isEmpty || !rs.isEmpty) = true := by simp [hwe]
    rw [harm]
    have hdw : drainWrites env ws.length ⟨ws, rs, false, false, []⟩
        = (⟨[], rs, false, false, ws⟩, false) := by
      have h := drainWrites_pure env ws [] hw ⟨ws, rs, false, false, []⟩ (by simp)
      simpa using h
    have hfr : fireRaf env ⟨ws, rs, true, false, []⟩ = ⟨[], rs, false, true, ws⟩ := by
      simp [fireRaf, hdw]
    have hdr : drainReads env rs.length ⟨[], rs, false, false, ws⟩
        = (⟨[], [], false, false, ws ++ rs⟩, false) := by
      have h := drainReads_pure env rs [] hr ⟨[], rs, false, false, ws⟩ (by simp)
      simpa using h
    have hft : fireTimeout env ⟨[], rs, false, true, ws⟩
        = ⟨[], [], false, false, ws ++ rs⟩ := by
      simp [fireTimeout, hdr]
    rw [hfr, hft]
    simp

/-- Pure environment for the C2 witness: every callback completes and
makes no scheduler calls. -/
def envPure : Env := fun _ => ⟨false, []⟩

/-- Witness for C2 with two write callbacks and two read callbacks. -/
theorem scheduler_full_activation_fifo_witness :
    (fireTimeout envPure (fireRaf envPure (readAll [3, 4] (writeAll [1, 2] initState)))).log
        = [1, 2] ++ [3, 4] ∧
    (fireTimeout envPure (fireRaf envPure (readAll [3, 4] (writeAll [1, 2] initState)))).writes
        = [] ∧
    (fireTimeout envPure (fireRaf envPure (readAll [3, 4] (writeAll [1, 2] initState)))).reads
        = [] :=
  scheduler_full_activation_fifo envPure [1, 2] [3, 4] (fun _ _ => rfl) (fun _ _ => rfl)

/-- Claim C6: a write callback enqueued from inside a running read-phase
callback does not run in the same activation: after the activation it sits
in the write queue, a fresh refresh request is armed (the pending marker
was cleared at activation start), and it runs in the write phase of the
next activation. -/
theorem write_during_read_deferred (env : Env) (pre post : List Nat) (r w : Nat)
    (hpre : ∀ c ∈ pre, env c = ⟨false, []⟩)
    (hpost : ∀ c ∈ post, env c = ⟨false, []⟩)
    (hrw : env r = ⟨false, [.wr w]⟩)
    (hwp : env w = ⟨false, []⟩)
    (hni : w ∉ pre ++ r :: post) :
    w ∉ (fireTimeout env (fireRaf env (readAll (pre ++ r :: post) initState))).log ∧
    (fireTimeout env (fireRaf env (readAll (pre ++ r :: post) initState))).writes
        = [w] ∧
    (fireTimeout env (fireRaf env (readAll (pre ++ r :: post) initState))).rafArmed
        = true ∧
    (fireRaf env (fireTimeout env (fireRaf env (readAll (pre ++ r :: post) initState)))).log
        = (pre ++ r :: post) ++ [w] := by
  have hs1 : readAll (pre ++ r :: post) initState
      = ⟨[], pre ++ r :: post, true, false, []⟩ := by
    rw [readAll_eq]
    simp [initState]
  rw [hs1]
  have hfr1 : fireRaf env ⟨[], pre ++ r :: post, true, false, []⟩
      = ⟨[], pre ++ r :: post, false, true, []⟩ := by
    simp [fireRaf, drainWrites]
  rw [hfr1]
  have h1 : drainReads env pre.length ⟨[], pre ++ r :: post, false, false, []⟩
      = (⟨[], r :: post, false, false, pre⟩, false) := by
    have h := drainReads_pure env pre (r :: post) hpre
      ⟨[], pre ++ r :: post, false, false, []⟩ rfl
    simpa using h
  have h2 : drainReads env (post.length + 1) ⟨[], r :: post, false, false, pre⟩
      = (⟨[w], [], true, false, (pre ++ [r]) ++ post⟩, false) := by
    have hstep : drainReads env (post.length + 1) ⟨[], r :: post, false, false, pre⟩
        = drainReads env post.length ⟨[w], post, true, false, pre ++ [r]⟩ := by
      simp [drainReads, hrw, runActs, write, schedule]
    rw [hstep]
    have h := drainReads_pure env post [] hpost ⟨[w], post, true, false, pre ++ [r]⟩
      (by simp)
    simpa using h
  have hdr : drainReads env (pre.length + (post.length + 1))
      ⟨[], pre ++ r :: post, false, false, []⟩
      = (⟨[w], [], true, false, pre ++ r :: post⟩, false) := by
    rw [drainReads_add, h1]
    simp only [Bool.false_eq_true, if_false]
    rw [h2]
    simp
  have hft : fireTimeout env ⟨[], pre ++ r :: post, false, true, []⟩
      = ⟨[w], [], true, false, pre ++ r :: post⟩ := by
    simp [fireTimeout, hdr]
  rw [hft]
  have hdw1 : drainWrites env 1 ⟨[w], [], false, false, pre ++ r :: post⟩
      = (⟨[], [], false, false, pre ++ r :: (post ++ [w])⟩, false) := by
    have h := drainWrites_pure env [w] [] (by simp [hwp])
      ⟨[w], [], false, false, pre ++ r :: post⟩ (by simp)
    simpa using h
  have hfr2 : fireRaf env ⟨[w], [], true, false, pre ++ r :: post⟩
      = ⟨[], [], false, true, pre ++ r :: (post ++ [w])⟩ := by
    simp [fireRaf, hdw1]
  rw [hfr2]
  exact ⟨hni, rfl, rfl, by simp⟩

/-- Environment for the C6 witness: read callback 5 enqueues write
callback 7; everything else is pure. -/
def envRW : Env := fun c => if c = 5 then ⟨false, [.wr 7]⟩ else ⟨false, []⟩

/-- Witness for C6: read callback 5 enqueues write callback 7, which runs
only in the next activation's write phase. -/
theorem write_during_read_deferred_witness :
    7 ∉ (fireTimeout envRW (fireRaf envRW (readAll ([] ++ 5 :: []) initState))).log ∧
    (fireTimeout envRW (fireRaf envRW (readAll ([] ++ 5 :: []) initState))).writes
        = [7] ∧
    (fireTimeout envRW (fireRaf envRW (readAll ([] ++ 5 :: []) initState))).rafArmed
        = true ∧
    (fireRaf envRW (fireTimeout envRW (fireRaf envRW (readAll ([] ++ 5 :: []) initState)))).log
        = ([] ++ 5 :: []) ++ [7] :=
  write_during_read_deferred envRW [] [] 5 7 (by simp) (by simp) rfl rfl (by decide)

/-- Environment for the C1 theorems: write callback 0 throws when
invoked; everything else is pure. -/
def envC1 : Env := fun c => if c = 0 then ⟨true, []⟩ else ⟨false, []⟩

/-- Counterexample to claim C1 as stated: write callbacks 0 and 1 are
queued in the same write phase, callback 0 throws when invoked, and
callback 1 does not run during the full activation (refresh signal then
timer signal) — the failing callback aborts the rest of its phase. -/
theorem failing_callback_not_isolated_cex :
    1 ∉ (fireTimeout envC1 (fireRaf envC1 (write 1 (write 0 initState)))).log ∧
    (fireTimeout envC1 (fireRaf envC1 (write 1 (write 0 initState)))).log = [] ∧
    (fireTimeout envC1 (fireRaf envC1 (write 1 (write 0 initState)))).writes = [1] := by
  decide

/-- Amended C1: the source drain loops have no exception handling, so in
either phase (write drain or read drain) a callback that throws aborts the
remaining drain of its phase for that activation: callbacks queued after
it stay in the queue and do not run in that activation, and a throwing
write callback additionally prevents the read-phase timer of that
activation from being scheduled. -/
theorem failing_callback_aborts_phase (env : Env) (pre post : List Nat) (f : Nat)
    (hpre : ∀ c ∈ pre, env c = ⟨false, []⟩)
    (hf : (env f).fails = true) :
    (fireRaf env (writeAll (pre ++ f :: post) initState)).log = pre ∧
    (fireRaf env (writeAll (pre ++ f :: post) initState)).writes = post ∧
    (fireRaf env (writeAll (pre ++ f :: post) initState)).timeoutArmed = false ∧
    fireTimeout env (fireRaf env (writeAll (pre ++ f :: post) initState))
      = fireRaf env (writeAll (pre ++ f :: post) initState) ∧
    (fireTimeout env (fireRaf env (readAll (pre ++ f :: post) initState))).log = pre ∧
    (fireTimeout env (fireRaf env (readAll (pre ++ f :: post) initState))).reads
      = post := by
  have hs1 : writeAll (pre ++ f :: post) initState
      = ⟨pre ++ f :: post, [], true, false, []⟩ := by
    rw [writeAll_eq]
    simp [initState]
  have h1 : drainWrites env pre.length ⟨pre ++ f :: post, [], false, false, []⟩
      = (⟨f :: post, [], false, false, pre⟩, false) := by
    have h := drainWrites_pure env pre (f :: post) hpre
      ⟨pre ++ f :: post, [], false, false, []⟩ rfl
    simpa using h
  have h2 : drainWrites env (post.length + 1) ⟨f :: post, [], false, false, pre⟩
      = (⟨post, [], false, false, pre⟩, true) := by
    simp [drainWrites, hf]
  have hdw : drainWrites env (pre.length + (post.length + 1))
      ⟨pre ++ f :: post, [], false, false, []⟩
      = (⟨post, [], false, false, pre⟩, true) := by
    rw [drainWrites_add, h1]
    simp only [Bool.false_eq_true, if_false]
    rw [h2]
  have hfr : fireRaf env ⟨pre ++ f :: post, [], true, false, []⟩
      = ⟨post, [], false, false, pre⟩ := by
    simp [fireRaf, hdw]
  have hs1r : readAll (pre ++ f :: post) initState
      = ⟨[], pre ++ f :: post, true, false, []⟩ := by
    rw [readAll_eq]
    simp [initState]
  have hfrr : fireRaf env ⟨[], pre ++ f :: post, true, false, []⟩
      = ⟨[], pre ++ f :: post, false, true, []⟩ := by
    simp [fireRaf, drainWrites]
  have h1r : drainReads env pre.length ⟨[], pre ++ f :: post, false, false, []⟩
      = (⟨[], f :: post, false, false, pre⟩, false) := by
    have h := drainReads_pure env pre (f :: post) hpre
      ⟨[], pre ++ f :: post, false, false, []⟩ rfl
    simpa using h
  have h2r : drainReads env (post.length + 1) ⟨[], f :: post, false, false, pre⟩
      = (⟨[], post, false, false, pre⟩, true) := by
    simp [drainReads, hf]
  have hdr : drainReads env (pre.length + (post.length + 1))
      ⟨[], pre ++ f :: post, false, false, []⟩
      = (⟨[], post, false, false, pre⟩, true) := by
    rw [drainReads_add, h1r]
    simp only [Bool.false_eq_true, if_false]
    rw [h2r]
  have hft : fireTimeout env ⟨[], pre ++ f :: post, false, true, []⟩
      = ⟨[], post, false, false, pre⟩ := by
    simp [fireTimeout, hdr]
  rw [hs1, hfr, hs1r, hfrr, hft]
  exact ⟨rfl, rfl, rfl, by simp [fireTimeout], rfl, rfl⟩

/-- Witness for the amended C1: callback 0 throws. In the write phase,
callback 1 stays queued and unrun and the read phase is never scheduled;
in the read phase, callback 1 likewise stays queued and unrun. -/
theorem failing_callback_aborts_phase_witness :
    (fireRaf envC1 (writeAll ([] ++ 0 :: [1]) initState)).log = [] ∧
    (fireRaf envC1 (writeAll ([] ++ 0 :: [1]) initState)).writes = [1] ∧
    (fireRaf envC1 (writeAll ([] ++ 0 :: [1]) initState)).timeoutArmed = false ∧
    fireTimeout envC1 (fireRaf envC1 (writeAll ([] ++ 0 :: [1]) initState))
      = fireRaf envC1 (writeAll ([] ++ 0 :: [1]) initState) ∧
    (fireTimeout envC1 (fireRaf envC1 (readAll ([] ++ 0 :: [1]) initState))).log
      = [] ∧
    (fireTimeout envC1 (fireRaf envC1 (readAll ([] ++ 0 :: [1]) initState))).reads
      = [1] :=
  failing_callback_aborts_phase envC1 [] [1] 0 (by simp) rfl

end ReactPopout
